import Mathlib

/-!
Shallow embedding of `testscripts/compatibility_core.py` from the
`zhongdai/leaves` repository: the compatibility-test harness consisting of
`LibraryType`, `VirtualEnvBuilder`, `CaseRunner`, `ReportFormatter` and the
abstract `Case` with its matrix comparison, directory lifecycle and
`run` state machine.

Modelling conventions:
* numeric matrix entries are modelled as rationals (`ℚ`); the numpy float
  arithmetic of `compare_matrices` is embedded as exact arithmetic;
* filesystem paths are opaque absolute strings in a flat namespace
  (`os.path.abspath` is the identity); a filesystem is a function
  `String → FsEntry` telling, for each path, whether a directory, a
  non-directory entry, or nothing is present there;
* external effects (venv creation, `pip install` invocations) are recorded
  as an explicit action trace;
* a Python function that can raise is embedded with `Except String` or
  `Option` (the `String` is the exception message; `none` is an
  exception), and `Case.run`, which uses `try/except/finally`, returns a
  `RunResult` that distinguishes a normal return from an escaping
  exception;
* Python's `sorted` is a stable sort; it is embedded as
  `List.insertionSort` with the corresponding non-strict comparison,
  which is also stable, so both produce the same list.
-/

namespace Compat

/-- `LibraryType` enumeration from the source: every test case depends on
one of these libraries. -/
inductive LibraryType where
  | XGBOOST
  | LIGHTGBM
  | SKLEARN
deriving DecidableEq, Repr

/-- `library_type.name.lower()` as used by `VirtualEnvBuilder._env_name`. -/
def LibraryType.lowerName : LibraryType → String
  | .XGBOOST => "xgboost"
  | .LIGHTGBM => "lightgbm"
  | .SKLEARN => "sklearn"

/-- The `VEnv` namedtuple: description of one virtual environment. -/
structure VEnv where
  env_dir : String
  python_path : String
  pip_path : String
  env_name : String
  library : LibraryType
  version : String
deriving DecidableEq, Repr

/-- What the filesystem holds at a given path: a directory, some
non-directory entry (a plain file, say), or nothing. -/
inductive FsEntry where
  | dir
  | file
  | absent
deriving DecidableEq, Repr

/-- A filesystem: flat map from paths to entries. -/
def Fs : Type := String → FsEntry

/-- `VirtualEnvBuilder._env_name`. -/
def env_name (library_type : LibraryType) (version : String) : String :=
  library_type.lowerName ++ "_" ++ version

/-- `VirtualEnvBuilder._env_full_path` (`os.path.join(root_dir, name)`). -/
def env_full_path (root_dir : String) (library_type : LibraryType)
    (version : String) : String :=
  root_dir ++ "/" ++ env_name library_type version

/-- The `VEnv` value constructed at the top of `VirtualEnvBuilder.activate`. -/
def mkVEnv (root_dir : String) (library_type : LibraryType)
    (version : String) : VEnv :=
  { env_dir := env_full_path root_dir library_type version
    python_path := env_full_path root_dir library_type version ++ "/bin/python"
    pip_path := env_full_path root_dir library_type version ++ "/bin/pip"
    env_name := env_name library_type version
    library := library_type
    version := version }

/-- `VirtualEnvBuilder._if_exist`: `true` if a directory is at the
environment path, `false` if nothing is there, and a raised `RuntimeError`
(modelled as `.error`) if the path exists but is not a directory. -/
def if_exist (fs : Fs) (root_dir : String) (library_type : LibraryType)
    (version : String) : Except String Bool :=
  match fs (env_full_path root_dir library_type version) with
  | .absent => .ok false
  | .dir => .ok true
  | .file =>
      .error ((env_full_path root_dir library_type version) ++
        " should be directory")

/-- External effects performed by `VirtualEnvBuilder.activate`:
`venv.create(env_dir, clear, symlinks, with_pip)` and
`execute_wrapper([pip_path, 'install', package])`. -/
inductive Action where
  | createEnv (env_dir : String) (clear symlinks with_pip : Bool)
  | pipInstall (pip_path : String) (package : String)
deriving DecidableEq, Repr

/-- `VirtualEnvBuilder.activate`: returns the `VEnv` plus the trace of
creation/installation actions performed (empty on the reuse fast path);
`.error` models the `RuntimeError` raised by `_if_exist`. -/
def activate (root_dir : String) (reuse_envs : Bool) (fs : Fs)
    (library_type : LibraryType) (version : String) :
    Except String (VEnv × List Action) := do
  let env := mkVEnv root_dir library_type version
  let exists_ ← if_exist fs root_dir library_type version
  if exists_ && reuse_envs then
    return (env, [])
  else
    let created : Action := .createEnv env.env_dir true true true
    if library_type = .LIGHTGBM then
      return (env, [created,
        .pipInstall env.pip_path "sklearn",
        .pipInstall env.pip_path ("lightgbm==" ++ version)])
    else
      return (env, [created,
        .pipInstall env.pip_path "sklearn",
        .pipInstall env.pip_path ("xgboost==" ++ version)])

/-! ## Matrix comparison (`Case.compare_matrices`)

A loaded tab-delimited matrix is its list of rows; `compare_matrices` is
embedded directly on the two loaded matrices (the `np.genfromtxt` file
loading is abstracted away: the claims quantify over the matrices). -/

/-- The shape of a loaded matrix: the list of row lengths (two numpy arrays
have equal shape iff these agree). -/
def mshape (m : List (List ℚ)) : List ℕ :=
  m.map List.length

/-- `m.size`: total number of entries. -/
def msize (m : List (List ℚ)) : ℕ :=
  (m.map List.length).sum

/-- The elementwise pairing of two equally shaped matrices, flattened. -/
def entryPairs (m1 m2 : List (List ℚ)) : List (ℚ × ℚ) :=
  ((m1.zip m2).map (fun r => r.1.zip r.2)).flatten

/-- `np.sum(np.abs(m1 - m2) > tolerance)`: the number of entry pairs whose
absolute difference exceeds the tolerance. -/
def countMismatches (m1 m2 : List (List ℚ)) (tolerance : ℚ) : ℕ :=
  ((entryPairs m1 m2).filter (fun p => decide (tolerance < |p.1 - p.2|))).length

/-- Message of the `CompareError` raised on a shape mismatch. -/
def shapeMessage (s1 s2 : List ℕ) : String :=
  "m1.shape != m2.shape (" ++ toString s1 ++ " != " ++ toString s2 ++ ")"

/-- Message of the `CompareError` raised when too many entries mismatch: it
carries the actual mismatch count and the maximum allowed count
(`max_number_of_mismatches_ratio * m1.size`).  The source f-string lacks
the closing parenthesis; that is reproduced. -/
def mismatchMessage (number_of_mismatches : ℕ) (max_allowed : ℚ) : String :=
  "number of mismatches = " ++ toString number_of_mismatches ++
    " (maximum allowed " ++ toString max_allowed

/-- `Case.compare_matrices` on the two loaded matrices: raises
(`.error`) `CompareError` on shape mismatch, then on
`number_of_mismatches > max_number_of_mismatches_ratio * m1.size`. -/
def compare_matrices (m1 m2 : List (List ℚ)) (tolerance : ℚ)
    (max_number_of_mismatches_ratio : ℚ) : Except String Unit :=
  if mshape m1 ≠ mshape m2 then
    .error (shapeMessage (mshape m1) (mshape m2))
  else if (countMismatches m1 m2 tolerance : ℚ) >
      max_number_of_mismatches_ratio * (msize m1 : ℚ) then
    .error (mismatchMessage (countMismatches m1 m2 tolerance)
      (max_number_of_mismatches_ratio * (msize m1 : ℚ)))
  else
    .ok ()

/-! ## The `Case.run` state machine (`prepare_dir` / `try` / `except` /
`finally`)

`Case.run` executes `prepare_dir`, `run_python`, `run_go` and `compare`
inside a `try`; `except Exception` converts the exception into a
`(False, str(e))` return value; `finally` removes the working directory
when it is ephemeral.  The external steps are modelled by a `CaseWorld`
giving each step's outcome (`tempfile.mkdtemp` either returns a fresh
directory path or raises; each of the three later steps either returns or
raises with a message).  Mutable attributes `self.dirname` /
`self.delete_dir` are the explicit `CaseState`; `self.dirname` is `none`
until assigned, as in Python where the attribute starts as the
constructor argument `None`. -/

/-- Mutable state of a `Case` instance relevant to `run`. -/
structure CaseState where
  dirname : Option String
  delete_dir : Bool
deriving DecidableEq, Repr

/-- Outcomes of the external steps invoked by `Case.run`. -/
structure CaseWorld where
  mkdtemp : Except String String
  run_python : Except String Unit
  run_go : Except String Unit
  compare : Except String Unit

/-- Overwrite the filesystem with a directory at `p`
(`tempfile.mkdtemp` / `os.makedirs` creating `p`). -/
def mkDirAt (fs : Fs) (p : String) : Fs :=
  fun q => if q = p then .dir else fs q

/-- `shutil.rmtree(p)`: remove the tree rooted at `p`. -/
def rmtree (fs : Fs) (p : String) : Fs :=
  fun q => if q = p then .absent else fs q

/-- `os.makedirs(d, exist_ok=True)`: fine when `d` is already a directory
or absent; raises when a non-directory entry occupies `d`. -/
def makedirs (fs : Fs) (d : String) : Except String Fs :=
  match fs d with
  | .file => .error ("FileExistsError: " ++ d)
  | .dir => .ok fs
  | .absent => .ok (mkDirAt fs d)

/-- Python truthiness test `not self.dirname`: `None` and the empty string
are both falsy. -/
def dirnameFalsy : Option String → Bool
  | none => true
  | some s => s = ""

/-- `Case.prepare_dir`: on the falsy branch sets `delete_dir = True` and
then assigns `dirname` from `tempfile.mkdtemp` (so `dirname` stays
unassigned if `mkdtemp` raises); otherwise sets `delete_dir = False`,
normalises `dirname` and calls `os.makedirs(..., exist_ok=True)`.
Returns the updated filesystem, the updated state, and the pending
exception message if one was raised.  (The inner `none` branch is dead:
`dirnameFalsy none` is `true`.) -/
def prepare_dir (fs : Fs) (dirname0 : Option String) (w : CaseWorld) :
    Fs × CaseState × Option String :=
  if dirnameFalsy dirname0 then
    match w.mkdtemp with
    | .error e => (fs, ⟨dirname0, true⟩, some e)
    | .ok p => (mkDirAt fs p, ⟨some p, true⟩, none)
  else
    match dirname0 with
    | none => (fs, ⟨none, false⟩, some "unreachable")
    | some d =>
        match makedirs fs d with
        | .error e => (fs, ⟨some d, false⟩, some e)
        | .ok fs1 => (fs1, ⟨some d, false⟩, none)

/-- The `try` body of `Case.run`: `prepare_dir`, `run_python`, `run_go`,
`compare` in sequence, stopping at the first exception.  Returns the
filesystem, the case state, and the first exception's message if any. -/
def tryBody (fs : Fs) (dirname0 : Option String) (w : CaseWorld) :
    Fs × CaseState × Option String :=
  match prepare_dir fs dirname0 w with
  | (fs1, st, some e) => (fs1, st, some e)
  | (fs1, st, none) =>
      match w.run_python with
      | .error e => (fs1, st, some e)
      | .ok _ =>
          match w.run_go with
          | .error e => (fs1, st, some e)
          | .ok _ =>
              match w.compare with
              | .error e => (fs1, st, some e)
              | .ok _ => (fs1, st, none)

/-- What `Case.run` does from the caller's point of view: either a normal
return of the `(success, reason)` pair, or an escaping exception. -/
inductive RunResult where
  | returns (success : Bool) (reason : String)
  | raises (message : String)
deriving DecidableEq, Repr

/-- `Case.run`: the `try` body, then the `except` clause mapping an
exception to `(False, str(e))`, then the `finally` clause which, when
`delete_dir` is set, calls `shutil.rmtree(self.dirname)` — and if
`dirname` was never assigned (`mkdtemp` raised), `rmtree(None)` itself
raises a `TypeError` that escapes `run`, replacing the pending return;
`rmtree` on a path that is not a directory also raises. -/
def case_run (fs : Fs) (dirname0 : Option String) (w : CaseWorld) :
    Fs × RunResult :=
  match tryBody fs dirname0 w with
  | (fs1, st, pending) =>
      if st.delete_dir then
        match st.dirname with
        | none =>
            (fs1, .raises
              "TypeError: rmtree: path should be string, bytes or os.PathLike, not NoneType")
        | some d =>
            match fs1 d with
            | .dir =>
                (rmtree fs1 d,
                  match pending with
                  | none => .returns true ""
                  | some e => .returns false e)
            | _ => (fs1, .raises ("FileNotFoundError: " ++ d))
      else
        (fs1,
          match pending with
          | none => .returns true ""
          | some e => .returns false e)

/-- The message of the first exception raised inside the `try` body of
`Case.run`, if any. -/
def firstFailure (fs : Fs) (dirname0 : Option String) (w : CaseWorld) :
    Option String :=
  (tryBody fs dirname0 w).2.2

/-! ## `CaseRunner` -/

/-- The `Outcome` namedtuple collected by `CaseRunner` (`case` is the
case class's name). -/
structure Outcome where
  env : VEnv
  caseName : String
  is_success : Bool
  reason : String
deriving DecidableEq, Repr

/-- `CaseRunner.run_single`: activates the environment (which may raise),
runs the case (whose `run` normally returns a `(success, reason)` pair but
can also raise), and appends exactly one `Outcome` built from the
environment, the case name and the pair.  `.error` models an exception
escaping `run_single`, in which case nothing is appended. -/
def run_single (outcomes : List Outcome)
    (activateResult : Except String VEnv) (caseResult : RunResult)
    (caseName : String) : Except String (List Outcome) :=
  match activateResult with
  | .error e => .error e
  | .ok env =>
      match caseResult with
      | .raises m => .error m
      | .returns success reason =>
          .ok (outcomes ++ [⟨env, caseName, success, reason⟩])

/-! ## `ReportFormatter.report`

The report groups outcomes by library; per library it sorts the distinct
case names lexicographically and the distinct version strings by the key
`tuple(map(int, s.split('.')))`, then renders one grid row per case with
`V`/`X`/`-` cells.  `int(...)` on a non-numeric component raises
`ValueError`, so the whole computation is `Option`-valued with `none`
modelling the uncaught exception.  Python's `set` iteration order is not
specified; it is determinised here by keeping first occurrences, which
does not affect the rendered grid because the subsequent sorts order the
elements by a key. -/

/-- Accumulate the decimal value of a digit list (`int` on a string of
digits). -/
def digitsToNat : List Char → ℕ → ℕ
  | [], acc => acc
  | c :: l, acc => digitsToNat l (acc * 10 + (c.toNat - '0'.toNat))

/-- Python `int(s)` on a version component: an optional sign followed by
one or more decimal digits; anything else raises `ValueError` (`none`). -/
def pyInt (s : String) : Option ℤ :=
  match s.data with
  | [] => none
  | '-' :: l =>
      if l = [] then none
      else if l.all Char.isDigit then some (-(digitsToNat l 0 : ℤ)) else none
  | '+' :: l =>
      if l = [] then none
      else if l.all Char.isDigit then some ((digitsToNat l 0 : ℤ)) else none
  | l => if l.all Char.isDigit then some ((digitsToNat l 0 : ℤ)) else none

/-- Helper for `s.split('.')`: split a character list at `'.'`,
accumulating the current chunk reversed. -/
def splitAux : List Char → List Char → List String
  | [], acc => [⟨acc.reverse⟩]
  | c :: rest, acc =>
      if c = '.' then ⟨acc.reverse⟩ :: splitAux rest []
      else splitAux rest (c :: acc)

/-- Python `s.split('.')`. -/
def pySplitDot (s : String) : List String :=
  splitAux s.data []

/-- Apply `f` to every element, failing (raising) as soon as `f` does. -/
def mapOrNone {α β : Type} (f : α → Option β) : List α → Option (List β)
  | [] => some []
  | a :: l =>
      match f a with
      | none => none
      | some b => (mapOrNone f l).map (fun bl => b :: bl)

/-- The sort key `lambda s: tuple(map(int, s.split('.')))`; `none` when one
of the components is not an integer literal. -/
def versionKey (s : String) : Option (List ℤ) :=
  mapOrNone pyInt (pySplitDot s)

/-- Non-strict lexicographic comparison of integer tuples (Python tuple
ordering). -/
def keyLe : List ℤ → List ℤ → Bool
  | [], _ => true
  | _ :: _, [] => false
  | a :: l1, b :: l2 =>
      if a < b then true else if b < a then false else keyLe l1 l2

/-- Strict code-point comparison of character lists (Python string `<`). -/
def charsLt : List Char → List Char → Bool
  | [], [] => false
  | [], _ :: _ => true
  | _ :: _, [] => false
  | a :: l1, b :: l2 =>
      if a < b then true else if b < a then false else charsLt l1 l2

/-- Python string `<=`: code-point lexicographic. -/
def strLe (a b : String) : Bool :=
  !(charsLt b.data a.data)

/-- `list(set(...))` determinised: distinct elements in order of first
occurrence. -/
def dedupKeepFirst {α : Type} [DecidableEq α] (l : List α) : List α :=
  l.foldl (fun acc a => if a ∈ acc then acc else acc ++ [a]) []

/-- `sorted(set(outcome.case for ... if outcome.env.library == library))`:
the distinct case names for a library, sorted lexicographically. -/
def casesFor (outcomes : List Outcome) (library : LibraryType) :
    List String :=
  List.insertionSort (fun a b => strLe a b = true)
    (dedupKeepFirst ((outcomes.filter
      (fun o => o.env.library == library)).map (fun o => o.caseName)))

/-- `sorted(set(...versions...), key=lambda s: tuple(map(int, s.split('.'))))`:
the distinct version strings for a library sorted by their numeric keys.
As in CPython's `sorted(xs, key=f)`, the key is computed for every
element up front, so a single bad version string fails the whole sort
(`none`). -/
def versionsFor (outcomes : List Outcome) (library : LibraryType) :
    Option (List String) :=
  match mapOrNone (fun v => (versionKey v).map (fun k => (v, k)))
      (dedupKeepFirst ((outcomes.filter
        (fun o => o.env.library == library)).map (fun o => o.env.version))) with
  | none => none
  | some keyed =>
      some ((List.insertionSort (fun a b => keyLe a.2 b.2 = true) keyed).map
        (fun p => p.1))

/-- The dict comprehension
`{outcome.env.version: outcome.is_success for ...}` built by iterating the
outcomes in order with overwriting inserts, queried with `.get`. -/
def versionMap (outcomes : List Outcome) (library : LibraryType)
    (caseName : String) : String → Option Bool :=
  outcomes.foldl
    (fun m o =>
      if o.env.library == library && o.caseName == caseName then
        fun v => if v == o.env.version then some o.is_success else m v
      else m)
    (fun _ => none)

/-- One grid cell: `'V'` for a recorded pass, `'X'` for a recorded
failure, `'-'` when the lookup returns nothing. -/
def cellFor (m : String → Option Bool) (version : String) : String :=
  match m version with
  | some true => "V"
  | some false => "X"
  | none => "-"

/-- The grid of one library's report section: the header row
`Case | versions...` followed by one row per case name; `none` when the
version sort raised. -/
def sectionRows (outcomes : List Outcome) (library : LibraryType) :
    Option (List (List String)) :=
  match versionsFor outcomes library with
  | none => none
  | some versions =>
      some (("Case" :: versions) ::
        (casesFor outcomes library).map (fun c =>
          c :: versions.map (cellFor (versionMap outcomes library c))))

/-- `ReportFormatter.report`'s grid content: one section per library seen
in the outcomes; `none` models the uncaught exception from the version
sort. -/
def reportSections (outcomes : List Outcome) :
    Option (List (LibraryType × List (List String))) :=
  mapOrNone
    (fun library => (sectionRows outcomes library).map
      (fun rows => (library, rows)))
    (dedupKeepFirst (outcomes.map (fun o => o.env.library)))

/-- Spec-side definition for C9 (refinement target, written from the
claim's words, to be compared with the code-side `versionMap` lookup): the
success flag of the last `Outcome` recorded for the given
(library, case, version) combination, if any. -/
def lastRecorded (outcomes : List Outcome) (library : LibraryType)
    (caseName version : String) : Option Bool :=
  ((outcomes.filter (fun o =>
    o.env.library == library && o.caseName == caseName &&
      o.env.version == version)).getLast?).map (fun o => o.is_success)

/-! ## Theorems -/

theorem compare_matrices_ok_iff (m1 m2 : List (List ℚ)) (tol ratio : ℚ)
    (hsh : mshape m1 = mshape m2) :
    compare_matrices m1 m2 tol ratio = .ok () ↔
      (countMismatches m1 m2 tol : ℚ) ≤ ratio * (msize m1 : ℚ) := by
  unfold compare_matrices
  rw [if_neg (by simp [hsh])]
  split
  · rename_i hgt
    simp only [gt_iff_lt, not_le] at *
    constructor
    · intro h
      exact absurd h (by simp)
    · intro h
      exact absurd hgt (not_lt.mpr h)
  · rename_i hle
    simp only [gt_iff_lt, not_lt] at hle
    simp [hle]

theorem compare_matrices_err_eq (m1 m2 : List (List ℚ)) (tol ratio : ℚ)
    (hsh : mshape m1 = mshape m2)
    (hgt : ratio * (msize m1 : ℚ) < (countMismatches m1 m2 tol : ℚ)) :
    compare_matrices m1 m2 tol ratio =
      .error (mismatchMessage (countMismatches m1 m2 tol)
        (ratio * (msize m1 : ℚ))) := by
  unfold compare_matrices
  rw [if_neg (by simp [hsh]), if_pos (by exact hgt)]

/-- C1: for matrices of equal shape, `compare_matrices` succeeds exactly
when the number of entries whose absolute difference exceeds the tolerance
is at most `max_mismatch_ratio * total_entry_count`; above that bound it
raises `CompareError` whose message carries the actual mismatch count and
the maximum allowed count; in particular a count of
`ceil(max_mismatch_ratio * total) + 1` raises. -/
theorem compare_matrices_mismatch_boundary (m1 m2 : List (List ℚ))
    (tol ratio : ℚ) (hsh : mshape m1 = mshape m2) :
    (compare_matrices m1 m2 tol ratio = .ok () ↔
      (countMismatches m1 m2 tol : ℚ) ≤ ratio * (msize m1 : ℚ))
    ∧ (ratio * (msize m1 : ℚ) < (countMismatches m1 m2 tol : ℚ) →
        compare_matrices m1 m2 tol ratio =
          .error (mismatchMessage (countMismatches m1 m2 tol)
            (ratio * (msize m1 : ℚ))))
    ∧ (countMismatches m1 m2 tol = Nat.ceil (ratio * (msize m1 : ℚ)) + 1 →
        compare_matrices m1 m2 tol ratio =
          .error (mismatchMessage (countMismatches m1 m2 tol)
            (ratio * (msize m1 : ℚ)))) := by
  refine ⟨compare_matrices_ok_iff m1 m2 tol ratio hsh,
    compare_matrices_err_eq m1 m2 tol ratio hsh, ?_⟩
  intro hceil
  apply compare_matrices_err_eq m1 m2 tol ratio hsh
  rw [hceil]
  push_cast
  have h := Nat.le_ceil (ratio * (msize m1 : ℚ))
  linarith

/-- Witness for C1 at `m1 = [[0]]`, `m2 = [[1]]`, `tolerance = 0`,
`ratio = 0`. -/
theorem compare_matrices_mismatch_boundary_witness :
    (compare_matrices [[(0 : ℚ)]] [[1]] 0 0 = .ok () ↔
      (countMismatches [[(0 : ℚ)]] [[1]] 0 : ℚ) ≤
        0 * (msize [[(0 : ℚ)]] : ℚ))
    ∧ (0 * (msize [[(0 : ℚ)]] : ℚ) <
        (countMismatches [[(0 : ℚ)]] [[1]] 0 : ℚ) →
        compare_matrices [[(0 : ℚ)]] [[1]] 0 0 =
          .error (mismatchMessage (countMismatches [[(0 : ℚ)]] [[1]] 0)
            (0 * (msize [[(0 : ℚ)]] : ℚ))))
    ∧ (countMismatches [[(0 : ℚ)]] [[1]] 0 =
        Nat.ceil (0 * (msize [[(0 : ℚ)]] : ℚ)) + 1 →
        compare_matrices [[(0 : ℚ)]] [[1]] 0 0 =
          .error (mismatchMessage (countMismatches [[(0 : ℚ)]] [[1]] 0)
            (0 * (msize [[(0 : ℚ)]] : ℚ)))) :=
  compare_matrices_mismatch_boundary [[0]] [[1]] 0 0 rfl

/-- Counterexample to C7 as stated: with a negative
`max_number_of_mismatches_ratio`, two identical one-entry matrices (every
absolute difference is `0 ≤ tolerance`) still raise `CompareError`,
because `0 > ratio * size` holds; so the comparison does not succeed
regardless of the ratio. -/
theorem compare_matrices_tolerance_cex :
    (|(0 : ℚ) - 0| ≤ 1) ∧
    compare_matrices [[(0 : ℚ)]] [[0]] 1 (-1) =
      .error (mismatchMessage 0 (-1)) ∧
    compare_matrices [[(0 : ℚ)]] [[0]] 1 (-1) ≠ .ok () := by
  have hc : countMismatches [[(0 : ℚ)]] [[0]] 1 = 0 := by
    norm_num [countMismatches, entryPairs]
  have hm : ((-1 : ℚ)) * (msize [[(0 : ℚ)]] : ℚ) = -1 := by
    norm_num [msize]
  have h := compare_matrices_err_eq [[(0 : ℚ)]] [[0]] 1 (-1) rfl
    (by rw [hc, hm]; norm_num)
  rw [hc, hm] at h
  refine ⟨by norm_num, h, ?_⟩
  rw [h]
  exact fun hh => Except.noConfusion hh

/-- C7 (amended): for matrices of equal shape whose entries all differ by
at most the tolerance, `compare_matrices` succeeds for every nonnegative
`max_number_of_mismatches_ratio`. -/
theorem compare_matrices_within_tolerance (m1 m2 : List (List ℚ))
    (tol ratio : ℚ) (hsh : mshape m1 = mshape m2) (hratio : 0 ≤ ratio)
    (hall : ∀ p ∈ entryPairs m1 m2, |p.1 - p.2| ≤ tol) :
    compare_matrices m1 m2 tol ratio = .ok () := by
  rw [compare_matrices_ok_iff m1 m2 tol ratio hsh]
  have hc : countMismatches m1 m2 tol = 0 := by
    unfold countMismatches
    rw [List.length_eq_zero, List.filter_eq_nil_iff]
    intro p hp
    simpa using not_lt.mpr (hall p hp)
  rw [hc]
  push_cast
  exact mul_nonneg hratio (Nat.cast_nonneg _)

/-- Witness for the amended C7 at two identical one-entry matrices with
tolerance `1` and ratio `0`. -/
theorem compare_matrices_within_tolerance_witness :
    compare_matrices [[(0 : ℚ)]] [[0]] 1 0 = .ok () :=
  compare_matrices_within_tolerance [[0]] [[0]] 1 0 rfl le_rfl
    (by norm_num [entryPairs])

/-- Counterexample to C2 as stated: when no working directory was supplied
and `tempfile.mkdtemp` raises (for instance the temp filesystem is full),
`self.dirname` is never assigned, so the `finally` clause calls
`shutil.rmtree(None)`, which raises a `TypeError` that escapes `run` —
`run` raises instead of returning `(False, reason)`. -/
theorem case_run_raises_cex :
    (case_run (fun _ => FsEntry.absent) none
      ⟨.error "OSError: disk full", .ok (), .ok (), .ok ()⟩).2 =
      .raises
        "TypeError: rmtree: path should be string, bytes or os.PathLike, not NoneType" :=
  rfl

/-- C2 (amended): provided that, when no working directory is supplied
(`dirname` falsy), the ephemeral directory creation succeeds, `Case.run`
never raises: it returns `(True, '')` when every step succeeds and
`(False, reason)` — with `reason` the first failing step's exception
message — otherwise. -/
theorem case_run_returns (fs : Fs) (dirname0 : Option String)
    (w : CaseWorld)
    (h : dirnameFalsy dirname0 = true → ∃ p, w.mkdtemp = .ok p) :
    (case_run fs dirname0 w).2 =
      match firstFailure fs dirname0 w with
      | none => .returns true ""
      | some e => .returns false e := by
  by_cases hf : dirnameFalsy dirname0 = true
  · obtain ⟨p, hp⟩ := h hf
    unfold case_run firstFailure tryBody prepare_dir
    rw [if_pos hf, hp]
    cases w.run_python with
    | error e => simp [mkDirAt]
    | ok _ =>
        cases w.run_go with
        | error e => simp [mkDirAt]
        | ok _ =>
            cases w.compare with
            | error e => simp [mkDirAt]
            | ok _ => simp [mkDirAt]
  · unfold case_run firstFailure tryBody prepare_dir
    rw [if_neg hf]
    cases dirname0 with
    | none => exact absurd rfl hf
    | some d =>
        cases hm : makedirs fs d with
        | error e => simp [hm]
        | ok fs1 =>
            cases w.run_python with
            | error e => simp [hm]
            | ok _ =>
                cases w.run_go with
                | error e => simp [hm]
                | ok _ =>
                    cases w.compare with
                    | error e => simp [hm]
                    | ok _ => simp [hm]

/-- Witness for the amended C2: a supplied directory and all steps
succeeding yields `(True, '')`. -/
theorem case_run_returns_witness :
    (case_run (fun _ => FsEntry.absent) (some "/work")
      ⟨.ok "/t", .ok (), .ok (), .ok ()⟩).2 = .returns true "" := by
  have h := case_run_returns (fun _ => FsEntry.absent) (some "/work")
    ⟨.ok "/t", .ok (), .ok (), .ok ()⟩ (fun _ => ⟨"/t", rfl⟩)
  exact h.trans rfl

/-- C5: directory lifecycle of `Case.run`.  When no directory was supplied
and the ephemeral directory `p` was created by `mkdtemp`, `p` is absent
from the filesystem after `run` finishes, whatever the outcome of the
later steps; when a (nonempty) directory name was supplied and no
non-directory entry occupies it, it is a directory after `run` finishes —
the `Case` never deletes it. -/
theorem case_dir_lifecycle (fs : Fs) (w : CaseWorld) :
    (∀ p, w.mkdtemp = .ok p → ((case_run fs none w).1) p = .absent)
    ∧ (∀ d, d ≠ "" → fs d ≠ .file →
        ((case_run fs (some d) w).1) d = .dir) := by
  constructor
  · intro p hp
    unfold case_run tryBody prepare_dir
    rw [if_pos (show dirnameFalsy none = true from rfl), hp]
    cases w.run_python with
    | error e => simp [mkDirAt, rmtree]
    | ok _ =>
        cases w.run_go with
        | error e => simp [mkDirAt, rmtree]
        | ok _ =>
            cases w.compare with
            | error e => simp [mkDirAt, rmtree]
            | ok _ => simp [mkDirAt, rmtree]
  · intro d hd hfile
    unfold case_run tryBody prepare_dir
    rw [if_neg (by simpa [dirnameFalsy] using hd)]
    have hdir : ∀ fs1, makedirs fs d = .ok fs1 → fs1 d = .dir := by
      intro fs1 h1
      unfold makedirs at h1
      cases hfs : fs d with
      | file => exact absurd hfs hfile
      | dir =>
          rw [hfs] at h1
          cases h1
          exact hfs
      | absent =>
          rw [hfs] at h1
          cases h1
          simp [mkDirAt]
    cases hm : makedirs fs d with
    | error e =>
        exfalso
        unfold makedirs at hm
        cases hfs : fs d with
        | file => exact hfile hfs
        | dir => rw [hfs] at hm; cases hm
        | absent => rw [hfs] at hm; cases hm
    | ok fs1 =>
        have hfs1 := hdir fs1 hm
        cases w.run_python with
        | error e => simpa [hm] using hfs1
        | ok _ =>
            cases w.run_go with
            | error e => simpa [hm] using hfs1
            | ok _ =>
                cases w.compare with
                | error e => simpa [hm] using hfs1
                | ok _ => simpa [hm] using hfs1

/-- Witness for C5: an ephemeral run (with a failing comparison) leaves no
directory behind; a run on the supplied directory `/work` leaves it in
place. -/
theorem case_dir_lifecycle_witness :
    ((case_run (fun _ => FsEntry.absent) none
      ⟨.ok "/tmp/matrixtest1", .ok (), .ok (), .error "CompareError"⟩).1)
        "/tmp/matrixtest1" = .absent
    ∧ ((case_run (fun _ => FsEntry.absent) (some "/work")
      ⟨.ok "/tmp/matrixtest1", .ok (), .ok (), .ok ()⟩).1) "/work" = .dir :=
  ⟨(case_dir_lifecycle (fun _ => FsEntry.absent)
      ⟨.ok "/tmp/matrixtest1", .ok (), .ok (), .error "CompareError"⟩).1
      "/tmp/matrixtest1" rfl,
    (case_dir_lifecycle (fun _ => FsEntry.absent)
      ⟨.ok "/tmp/matrixtest1", .ok (), .ok (), .ok ()⟩).2
      "/work" (by decide) (by decide)⟩

/-- C6: if the computed environment path exists but is not a directory,
`activate` raises the `RuntimeError` from `_if_exist` immediately — it is
not converted into an `Outcome` — whatever the value of the reuse flag. -/
theorem activate_non_directory_fatal (root_dir : String)
    (reuse_envs : Bool) (fs : Fs) (library_type : LibraryType)
    (version : String)
    (h : fs (env_full_path root_dir library_type version) = .file) :
    activate root_dir reuse_envs fs library_type version =
      .error (env_full_path root_dir library_type version ++
        " should be directory") := by
  simp [activate, if_exist, h, Bind.bind, Except.bind]

/-- Witness for C6: a plain file sitting at `/envs/xgboost_1.0` makes
`activate` raise, with reuse enabled. -/
theorem activate_non_directory_fatal_witness :
    activate "/envs" true
      (fun p => if p = "/envs/xgboost_1.0" then FsEntry.file else FsEntry.absent)
      LibraryType.XGBOOST "1.0" =
      .error (env_full_path "/envs" LibraryType.XGBOOST "1.0" ++
        " should be directory") :=
  activate_non_directory_fatal "/envs" true
    (fun p => if p = "/envs/xgboost_1.0" then FsEntry.file else FsEntry.absent)
    LibraryType.XGBOOST "1.0" (by decide)

/-- Counterexample to C3 as stated: (a) for the `SKLEARN` variant the
fresh-install path installs `xgboost==version` — the dispatch is a
two-way `if`, so `SKLEARN` falls into the `else` branch and the requested
variant is not pinned to the version; (b) with reuse disabled, a
non-directory entry at the environment path makes `activate` raise rather
than create a fresh environment, even though no directory exists there. -/
theorem activate_installs_cex :
    activate "/envs" false (fun _ => FsEntry.absent)
      LibraryType.SKLEARN "1.0" =
      .ok (mkVEnv "/envs" LibraryType.SKLEARN "1.0",
        [.createEnv "/envs/sklearn_1.0" true true true,
          .pipInstall "/envs/sklearn_1.0/bin/pip" "sklearn",
          .pipInstall "/envs/sklearn_1.0/bin/pip" "xgboost==1.0"])
    ∧ (Action.pipInstall "/envs/sklearn_1.0/bin/pip" "xgboost==1.0" ≠
        Action.pipInstall "/envs/sklearn_1.0/bin/pip" "sklearn==1.0")
    ∧ activate "/envs" false
        (fun p => if p = "/envs/xgboost_1.0" then FsEntry.file else FsEntry.absent)
        LibraryType.XGBOOST "1.0" =
        .error ("/envs/xgboost_1.0" ++ " should be directory") :=
  ⟨rfl, by decide, rfl⟩

/-- C3 (amended): when nothing exists at the environment path, or reuse is
disabled and the path is not occupied by a non-directory entry, `activate`
creates a fresh environment at that path with `clear=True` (clearing any
prior contents) and then installs `sklearn` first, followed by
`lightgbm==version` for the `LIGHTGBM` variant and `xgboost==version` for
the `XGBOOST` and `SKLEARN` variants. -/
theorem activate_fresh_install (root_dir : String) (reuse_envs : Bool)
    (fs : Fs) (library_type : LibraryType) (version : String)
    (h : fs (env_full_path root_dir library_type version) = .absent ∨
      (reuse_envs = false ∧
        fs (env_full_path root_dir library_type version) ≠ .file)) :
    activate root_dir reuse_envs fs library_type version =
      .ok (mkVEnv root_dir library_type version,
        [.createEnv (env_full_path root_dir library_type version) true true true,
          .pipInstall (env_full_path root_dir library_type version ++ "/bin/pip")
            "sklearn",
          .pipInstall (env_full_path root_dir library_type version ++ "/bin/pip")
            ((if library_type = .LIGHTGBM then "lightgbm==" else "xgboost==") ++
              version)]) := by
  rcases h with h | ⟨hr, hne⟩
  · by_cases hl : library_type = .LIGHTGBM
    · subst hl
      simp [activate, if_exist, h, mkVEnv, Bind.bind, Except.bind, pure,
        Except.pure]
    · simp [activate, if_exist, h, hl, mkVEnv, Bind.bind, Except.bind, pure,
        Except.pure]
  · subst hr
    cases hfs : fs (env_full_path root_dir library_type version) with
    | file => exact absurd hfs hne
    | dir =>
        by_cases hl : library_type = .LIGHTGBM
        · subst hl
          simp [activate, if_exist, hfs, mkVEnv, Bind.bind, Except.bind,
            pure, Except.pure]
        · simp [activate, if_exist, hfs, hl, mkVEnv, Bind.bind, Except.bind,
            pure, Except.pure]
    | absent =>
        by_cases hl : library_type = .LIGHTGBM
        · subst hl
          simp [activate, if_exist, hfs, mkVEnv, Bind.bind, Except.bind,
            pure, Except.pure]
        · simp [activate, if_exist, hfs, hl, mkVEnv, Bind.bind, Except.bind,
            pure, Except.pure]

/-- Witness for the amended C3: fresh install of `LIGHTGBM` version
`2.3.1` under an empty filesystem. -/
theorem activate_fresh_install_witness :
    activate "/envs" false (fun _ => FsEntry.absent)
      LibraryType.LIGHTGBM "2.3.1" =
      .ok (mkVEnv "/envs" LibraryType.LIGHTGBM "2.3.1",
        [.createEnv "/envs/lightgbm_2.3.1" true true true,
          .pipInstall "/envs/lightgbm_2.3.1/bin/pip" "sklearn",
          .pipInstall "/envs/lightgbm_2.3.1/bin/pip" "lightgbm==2.3.1"]) := by
  have h := activate_fresh_install "/envs" false (fun _ => FsEntry.absent)
    LibraryType.LIGHTGBM "2.3.1" (Or.inl rfl)
  exact h.trans rfl

/-- C4: with reuse enabled, if a first `activate` for `(variant, version)`
succeeded with environment `env`, then a second `activate` against any
filesystem still holding a directory at the environment path (as after the
first call, absent intervening deletion) returns exactly the same `env` —
all fields identical — and performs no creation or installation actions. -/
theorem activate_reuse_idempotent (root_dir : String) (fs1 fs2 : Fs)
    (library_type : LibraryType) (version : String) (env : VEnv)
    (acts : List Action)
    (h1 : activate root_dir true fs1 library_type version = .ok (env, acts))
    (h2 : fs2 (env_full_path root_dir library_type version) = .dir) :
    activate root_dir true fs2 library_type version = .ok (env, []) := by
  have henv : env = mkVEnv root_dir library_type version := by
    cases hfs : fs1 (env_full_path root_dir library_type version) with
    | file =>
        simp [activate, if_exist, hfs, Bind.bind, Except.bind, pure,
          Except.pure] at h1
    | dir =>
        simp [activate, if_exist, hfs, Bind.bind, Except.bind, pure,
          Except.pure] at h1
        exact h1.1.symm
    | absent =>
        by_cases hl : library_type = .LIGHTGBM
        · subst hl
          simp [activate, if_exist, hfs, Bind.bind, Except.bind, pure,
            Except.pure] at h1
          exact h1.1.symm
        · simp [activate, if_exist, hfs, hl, Bind.bind, Except.bind, pure,
            Except.pure] at h1
          exact h1.1.symm
  rw [henv]
  simp [activate, if_exist, h2, Bind.bind, Except.bind, pure, Except.pure]

/-- Witness for C4: first call creates `/envs/xgboost_1.0` from an empty
filesystem; the second call, with the directory now present, returns the
same `VEnv` and does nothing. -/
theorem activate_reuse_idempotent_witness :
    activate "/envs" true (fun _ => FsEntry.dir) LibraryType.XGBOOST "1.0" =
      .ok (mkVEnv "/envs" LibraryType.XGBOOST "1.0", []) :=
  activate_reuse_idempotent "/envs" (fun _ => FsEntry.absent)
    (fun _ => FsEntry.dir) LibraryType.XGBOOST "1.0"
    (mkVEnv "/envs" LibraryType.XGBOOST "1.0")
    [.createEnv "/envs/xgboost_1.0" true true true,
      .pipInstall "/envs/xgboost_1.0/bin/pip" "sklearn",
      .pipInstall "/envs/xgboost_1.0/bin/pip" "xgboost==1.0"]
    rfl rfl

theorem keyLe_cons_iff (a b : ℤ) (l1 l2 : List ℤ) :
    keyLe (a :: l1) (b :: l2) = true ↔
      a < b ∨ (a = b ∧ keyLe l1 l2 = true) := by
  rcases lt_trichotomy a b with h | h | h
  · simp [keyLe, h]
  · subst h
    simp [keyLe]
  · simp [keyLe, not_lt.mpr h.le, h, (ne_of_gt h)]

theorem keyLe_total (k1 : List ℤ) : ∀ k2,
    keyLe k1 k2 = true ∨ keyLe k2 k1 = true := by
  induction k1 with
  | nil => intro k2; exact Or.inl rfl
  | cons a l1 ih =>
      intro k2
      cases k2 with
      | nil => exact Or.inr rfl
      | cons b l2 =>
          rcases lt_trichotomy a b with h | h | h
          · left
            simp [keyLe, h]
          · subst h
            rcases ih l2 with h1 | h1
            · left
              simp [keyLe, h1]
            · right
              simp [keyLe, h1]
          · right
            simp [keyLe, h]

theorem keyLe_trans (k1 : List ℤ) : ∀ k2 k3, keyLe k1 k2 = true →
    keyLe k2 k3 = true → keyLe k1 k3 = true := by
  induction k1 with
  | nil => intro k2 k3 _ _; rfl
  | cons a l1 ih =>
      intro k2 k3 h12 h23
      cases k2 with
      | nil => simp [keyLe] at h12
      | cons b l2 =>
          cases k3 with
          | nil => simp [keyLe] at h23
          | cons c l3 =>
              rw [keyLe_cons_iff] at h12 h23 ⊢
              rcases h12 with h12 | ⟨h12, h12k⟩
              · rcases h23 with h23 | ⟨h23, _⟩
                · exact Or.inl (lt_trans h12 h23)
                · exact Or.inl (h23 ▸ h12)
              · rcases h23 with h23 | ⟨h23, h23k⟩
                · exact Or.inl (h12 ▸ h23)
                · exact Or.inr ⟨h12.trans h23, ih l2 l3 h12k h23k⟩

theorem mapOrNone_mem {α β : Type} (f : α → Option β) (l : List α)
    (ys : List β) (h : mapOrNone f l = some ys) :
    ∀ y ∈ ys, ∃ x ∈ l, f x = some y := by
  induction l generalizing ys with
  | nil =>
      unfold mapOrNone at h
      injection h with h
      subst h
      intro y hy
      cases hy
  | cons x l ih =>
      unfold mapOrNone at h
      cases hx : f x with
      | none => rw [hx] at h; cases h
      | some b =>
          rw [hx] at h
          cases hl : mapOrNone f l with
          | none => rw [hl] at h; cases h
          | some bs =>
              rw [hl] at h
              injection h with h
              subst h
              intro y hy
              rcases List.mem_cons.mp hy with hy | hy
              · exact ⟨x, List.mem_cons_self x l, hy ▸ hx⟩
              · obtain ⟨x2, hx2, hfx2⟩ := ih bs hl y hy
                exact ⟨x2, List.mem_cons_of_mem x hx2, hfx2⟩

theorem mapOrNone_eq_none {α β : Type} (f : α → Option β) (l : List α)
    (a : α) (ha : a ∈ l) (hf : f a = none) : mapOrNone f l = none := by
  induction l with
  | nil => cases ha
  | cons x l ih =>
      rcases List.mem_cons.mp ha with h | h
      · subst h
        unfold mapOrNone
        rw [hf]
      · unfold mapOrNone
        cases f x with
        | none => rfl
        | some b => rw [ih h]; rfl

theorem mem_foldl_dedup {α : Type} [DecidableEq α] (l : List α) :
    ∀ (acc : List α) (a : α),
      (a ∈ l.foldl (fun acc2 x => if x ∈ acc2 then acc2 else acc2 ++ [x]) acc ↔
        a ∈ acc ∨ a ∈ l) := by
  induction l with
  | nil => intro acc a; simp
  | cons x l ih =>
      intro acc a
      rw [List.foldl_cons, ih]
      by_cases hx : x ∈ acc
      · rw [if_pos hx]
        constructor
        · intro h
          rcases h with h | h
          · exact Or.inl h
          · exact Or.inr (List.mem_cons_of_mem _ h)
        · intro h
          rcases h with h | h
          · exact Or.inl h
          · rcases List.mem_cons.mp h with h | h
            · exact Or.inl (h ▸ hx)
            · exact Or.inr h
      · rw [if_neg hx]
        constructor
        · intro h
          rcases h with h | h
          · rcases List.mem_append.mp h with h | h
            · exact Or.inl h
            · exact Or.inr (List.mem_cons.mpr (Or.inl (List.mem_singleton.mp h)))
          · exact Or.inr (List.mem_cons_of_mem _ h)
        · intro h
          rcases h with h | h
          · exact Or.inl (List.mem_append.mpr (Or.inl h))
          · rcases List.mem_cons.mp h with h | h
            · exact Or.inl (List.mem_append.mpr (Or.inr (List.mem_singleton.mpr h)))
            · exact Or.inr h

theorem mem_dedupKeepFirst {α : Type} [DecidableEq α] (l : List α) (a : α) :
    a ∈ dedupKeepFirst l ↔ a ∈ l := by
  unfold dedupKeepFirst
  rw [mem_foldl_dedup]
  simp

theorem versionMap_eq_lastRecorded (outcomes : List Outcome)
    (library : LibraryType) (caseName version : String) :
    versionMap outcomes library caseName version =
      lastRecorded outcomes library caseName version := by
  induction outcomes using List.reverseRecOn with
  | nil => rfl
  | append_singleton l o ih =>
      unfold versionMap lastRecorded at ih ⊢
      rw [List.foldl_append, List.foldl_cons, List.foldl_nil,
        List.filter_append, List.filter_cons, List.filter_nil]
      by_cases hl : o.env.library = library
      · by_cases hc : o.caseName = caseName
        · rw [if_pos (by simp [hl, hc])]
          by_cases hv : version = o.env.version
          · rw [if_pos (by simp [hv])]
            rw [if_pos (by simp [hl, hc, hv.symm])]
            rw [List.getLast?_concat]
            rfl
          · rw [if_neg (by simp [beq_iff_eq]; exact hv)]
            rw [if_neg (by simp [beq_iff_eq, hl, hc]; exact fun hh => hv hh.symm)]
            rw [List.append_nil]
            exact ih
        · rw [if_neg (by simp [beq_iff_eq, hc])]
          rw [if_neg (by simp [beq_iff_eq, hc])]
          rw [List.append_nil]
          exact ih
      · rw [if_neg (by simp [beq_iff_eq, hl])]
        rw [if_neg (by simp [beq_iff_eq, hl])]
        rw [List.append_nil]
        exact ih

/-- C9: (a) a completed `run_single` call appends exactly one `Outcome`
(so two completed calls on the same pair append two); (b) a rendered grid
cell is `V`/`X` according to the success flag of the last `Outcome`
recorded for that (library, case, version), and `-` when none exists. -/
theorem run_single_append_and_cell :
    (∀ (outcomes outcomes2 : List Outcome) (a : Except String VEnv)
        (c : RunResult) (n : String),
        run_single outcomes a c n = .ok outcomes2 →
        ∃ env success reason,
          outcomes2 = outcomes ++ [⟨env, n, success, reason⟩])
    ∧ (∀ (outcomes : List Outcome) (library : LibraryType)
        (caseName version : String),
        cellFor (versionMap outcomes library caseName) version =
          match lastRecorded outcomes library caseName version with
          | some true => "V"
          | some false => "X"
          | none => "-") := by
  constructor
  · intro outcomes outcomes2 a c n h
    cases a with
    | error e => cases h
    | ok env =>
        cases c with
        | raises m => cases h
        | returns success reason =>
            unfold run_single at h
            injection h with h
            exact ⟨env, success, reason, h.symm⟩
  · intro outcomes library caseName version
    unfold cellFor
    rw [versionMap_eq_lastRecorded]

/-- Witness for C9: a successful `run_single` on an empty outcome list
appends one `Outcome`; with two recorded outcomes for the same
(case, version) — a pass then a failure — the rendered cell is `X`, the
flag of the last one. -/
theorem run_single_append_and_cell_witness :
    (∃ env success reason,
      ([⟨mkVEnv "/envs" .XGBOOST "1.0", "CaseA", true, ""⟩] : List Outcome) =
        [] ++ [⟨env, "CaseA", success, reason⟩])
    ∧ cellFor (versionMap
        [⟨mkVEnv "/envs" .XGBOOST "1.0", "CaseA", true, ""⟩,
          ⟨mkVEnv "/envs" .XGBOOST "1.0", "CaseA", false, "boom"⟩]
        LibraryType.XGBOOST "CaseA") "1.0" = "X" :=
  ⟨run_single_append_and_cell.1 []
      [⟨mkVEnv "/envs" .XGBOOST "1.0", "CaseA", true, ""⟩]
      (.ok (mkVEnv "/envs" .XGBOOST "1.0")) (.returns true "") "CaseA" rfl,
    (run_single_append_and_cell.2
      [⟨mkVEnv "/envs" .XGBOOST "1.0", "CaseA", true, ""⟩,
        ⟨mkVEnv "/envs" .XGBOOST "1.0", "CaseA", false, "boom"⟩]
      LibraryType.XGBOOST "CaseA" "1.0").trans rfl⟩

/-- C8: (a) at the claim's concrete input, the version columns for a
variant come out in dotted-numeric order `0.9, 1.2, 1.10` — not the
lexicographic order `0.9, 1.10, 1.2`; (b) in general the version list
produced for a report section is sorted by the dotted-numeric key
(componentwise integer comparison). -/
theorem report_version_order :
    (versionsFor
        [⟨mkVEnv "/envs" .XGBOOST "1.2", "CaseA", true, ""⟩,
          ⟨mkVEnv "/envs" .XGBOOST "1.10", "CaseA", true, ""⟩,
          ⟨mkVEnv "/envs" .XGBOOST "0.9", "CaseA", true, ""⟩]
        LibraryType.XGBOOST = some ["0.9", "1.2", "1.10"])
    ∧ (["0.9", "1.2", "1.10"] : List String) ≠ ["0.9", "1.10", "1.2"]
    ∧ (∀ (outcomes : List Outcome) (library : LibraryType)
        (vs : List String),
        versionsFor outcomes library = some vs →
        vs.Pairwise (fun v1 v2 => ∀ k1 k2, versionKey v1 = some k1 →
          versionKey v2 = some k2 → keyLe k1 k2 = true)) := by
  refine ⟨rfl, by decide, ?_⟩
  intro outcomes library vs h
  unfold versionsFor at h
  cases hm : mapOrNone (fun v => (versionKey v).map (fun k => (v, k)))
      (dedupKeepFirst ((outcomes.filter
        (fun o => o.env.library == library)).map (fun o => o.env.version))) with
  | none => rw [hm] at h; cases h
  | some keyed =>
      rw [hm] at h
      injection h with h
      subst h
      have hkeys : ∀ y ∈ keyed, versionKey y.1 = some y.2 := by
        intro y hy
        obtain ⟨x, _, hx⟩ := mapOrNone_mem _ _ _ hm y hy
        cases hvk : versionKey x with
        | none => rw [hvk] at hx; cases hx
        | some k =>
            rw [hvk] at hx
            injection hx with hx
            rw [← hx]
            exact hvk
      haveI hT : IsTotal (String × List ℤ)
          (fun a b => keyLe a.2 b.2 = true) :=
        ⟨fun a b => keyLe_total a.2 b.2⟩
      haveI hR : IsTrans (String × List ℤ)
          (fun a b => keyLe a.2 b.2 = true) :=
        ⟨fun a b c hab hbc => keyLe_trans a.2 b.2 c.2 hab hbc⟩
      have hsorted := List.sorted_insertionSort
        (fun a b : String × List ℤ => keyLe a.2 b.2 = true) keyed
      have hmem : ∀ y ∈ List.insertionSort
          (fun a b : String × List ℤ => keyLe a.2 b.2 = true) keyed,
          versionKey y.1 = some y.2 :=
        fun y hy => hkeys y ((List.perm_insertionSort _ keyed).mem_iff.mp hy)
      rw [List.pairwise_map]
      refine hsorted.imp_of_mem ?_
      intro a b ha hb hab k1 k2 h1 h2
      rw [hmem a ha] at h1
      rw [hmem b hb] at h2
      injection h1 with h1
      injection h2 with h2
      rw [← h1, ← h2]
      exact hab

/-- Witness for C8's general part at the concrete three-version input. -/
theorem report_version_order_witness :
    (["0.9", "1.2", "1.10"] : List String).Pairwise
      (fun v1 v2 => ∀ k1 k2, versionKey v1 = some k1 →
        versionKey v2 = some k2 → keyLe k1 k2 = true) :=
  report_version_order.2.2
    [⟨mkVEnv "/envs" .XGBOOST "1.2", "CaseA", true, ""⟩,
      ⟨mkVEnv "/envs" .XGBOOST "1.10", "CaseA", true, ""⟩,
      ⟨mkVEnv "/envs" .XGBOOST "0.9", "CaseA", true, ""⟩]
    LibraryType.XGBOOST ["0.9", "1.2", "1.10"] rfl

/-- C10: if any accumulated outcome's version string has a dot-separated
component that is not a decimal integer, the report computation raises an
uncaught exception (`none`) instead of producing the sections. -/
theorem report_raises_on_nonnumeric_version (outcomes : List Outcome)
    (o : Outcome) (ho : o ∈ outcomes)
    (hk : versionKey o.env.version = none) :
    reportSections outcomes = none := by
  have hv : versionsFor outcomes o.env.library = none := by
    unfold versionsFor
    have hmem : o.env.version ∈
        dedupKeepFirst ((outcomes.filter
          (fun o2 => o2.env.library == o.env.library)).map
            (fun o2 => o2.env.version)) := by
      rw [mem_dedupKeepFirst]
      exact List.mem_map_of_mem _ (List.mem_filter.mpr ⟨ho, by simp⟩)
    rw [mapOrNone_eq_none _ _ _ hmem (by rw [hk]; rfl)]
  have hs : sectionRows outcomes o.env.library = none := by
    unfold sectionRows
    rw [hv]
  have hmem2 : o.env.library ∈
      dedupKeepFirst (outcomes.map (fun o2 => o2.env.library)) := by
    rw [mem_dedupKeepFirst]
    exact List.mem_map_of_mem _ ho
  unfold reportSections
  exact mapOrNone_eq_none _ _ _ hmem2 (by rw [hs]; rfl)

/-- Witness for C10 at the claim's example version string `1.0rc1`. -/
theorem report_raises_on_nonnumeric_version_witness :
    reportSections
      [⟨mkVEnv "/envs" .XGBOOST "1.0rc1", "CaseA", true, ""⟩] = none :=
  report_raises_on_nonnumeric_version
    [⟨mkVEnv "/envs" .XGBOOST "1.0rc1", "CaseA", true, ""⟩]
    ⟨mkVEnv "/envs" .XGBOOST "1.0rc1", "CaseA", true, ""⟩
    (List.mem_singleton.mpr rfl) rfl

end Compat
